import Mathlib

/-!
# Verification of the `http-client` interactive controller

A shallow embedding of the repository (src/tui.rs, src/headers.rs, src/json.rs)
into Lean 4, followed by theorems settling the specification claims.

Conventions of the embedding:
* Rust `String` becomes Lean `String`; `Vec<T>` becomes `List T`;
  `Option<T>` becomes `Option T`; `u16`/`u64`/`usize` become `Nat`
  (no arithmetic in the modelled code can overflow or go negative).
* Fallible Rust code (`Result`) becomes `Except`.
* The network round trip (`reqwest`) is an oracle passed in as a function
  from the built request to either an error message or a raw response;
  the wall-clock duration is likewise passed in as a parameter.
* External collaborator crates (`http` header parsing, `serde_json`) are
  modelled by executable Lean functions faithful to their documented
  behaviour; each such model carries a doc comment saying so.
-/

namespace HttpClient

/-! ## String helpers mirroring Rust std behaviour

These are written over the character list of the string so that every
definition evaluates by kernel reduction on concrete inputs. -/

/-- Model of Rust `str::trim`: drop whitespace from both ends (the inputs
here are ASCII; the exotic Unicode whitespace Rust also trims never occurs
in the modelled data). -/
def rustTrim (s : String) : String :=
  String.mk (((s.data.dropWhile Char.isWhitespace).reverse.dropWhile Char.isWhitespace).reverse)

/-- Model of Rust `String::pop` with the popped character discarded:
remove the last character, a no-op on the empty string. -/
def rustPop (s : String) : String :=
  String.mk s.data.dropLast

/-- Does the string start with the given character (`str::starts_with(char)`)? -/
def startsWithChar (s : String) (c : Char) : Bool :=
  s.data.head? = some c

/-- Does the string end with the given character (`str::ends_with(char)`)? -/
def endsWithChar (s : String) (c : Char) : Bool :=
  s.data.getLast? = some c

/-- Split a character list at every occurrence of the separator. -/
def splitCharsOn (sep : Char) : List Char → List (List Char)
  | [] => [[]]
  | c :: cs =>
    if c = sep then [] :: splitCharsOn sep cs
    else
      match splitCharsOn sep cs with
      | [] => [[c]]
      | g :: gs => (c :: g) :: gs

/-- Model of Rust `str::lines`: split on `\n`, drop the one trailing empty
segment produced by a final newline, and strip a trailing `\r` from each
line. `"".lines() = []`, `"a\n".lines() = ["a"]`, `"\n".lines() = [""]`. -/
def rustLines (s : String) : List String :=
  let parts := (splitCharsOn '\n' s.data).map String.mk
  let parts := if parts.getLast? = some "" then parts.dropLast else parts
  parts.map (fun l => if endsWithChar l '\r' then String.mk l.data.dropLast else l)

/-- Split a character list at the first occurrence of the separator. -/
def splitOnceChar (sep : Char) : List Char → Option (List Char × List Char)
  | [] => none
  | c :: cs =>
    if c = sep then some ([], cs)
    else (splitOnceChar sep cs).map (fun p => (c :: p.1, p.2))

/-- Model of Rust `str::split_once(':')`: split at the first colon; `none`
when the line holds no colon. -/
def splitOnceColon (line : String) : Option (String × String) :=
  (splitOnceChar ':' line.data).map (fun p => (String.mk p.1, String.mk p.2))

/-- Model of `str::to_lowercase` as used on ASCII header names. -/
def lowerString (s : String) : String :=
  String.mk (s.data.map Char.toLower)

/-! ## src/headers.rs -/

/-- Rust `HeaderError` from src/headers.rs. -/
inductive HeaderError where
  | InvalidFormat (header : String)
  | InvalidName (name : String)
  | InvalidValue (value : String)
  deriving DecidableEq, Repr

/-- The `Display` impl of `HeaderError` in src/headers.rs. -/
def headerErrorMessage : HeaderError → String
  | .InvalidFormat h => s!"Invalid header format: \x27{h}\x27. Use \x27Key: Value\x27 format"
  | .InvalidName n => s!"Invalid header name: \x27{n}\x27"
  | .InvalidValue v => s!"Invalid header value: \x27{v}\x27"

/-- Token characters allowed in an HTTP header name
(`! # $ % & \x27 * + - . ^ _ \x60 | ~` and alphanumerics).
Models `HeaderName::from_str` of the `http` crate (external collaborator). -/
def isTokenChar (c : Char) : Bool :=
  c.isAlphanum || [33, 35, 36, 37, 38, 39, 42, 43, 45, 46, 94, 95, 96, 124, 126].contains c.toNat

/-- Model of `key.parse::<HeaderName>()` from the `http` crate (external
collaborator): nonempty, token characters only, normalised to lowercase. -/
def parseHeaderName (k : String) : Except Unit String :=
  if k ≠ "" ∧ k.data.all isTokenChar then .ok (lowerString k) else .error ()

/-- Model of `value.parse::<HeaderValue>()` from the `http` crate (external
collaborator): tab or any character not below space, DEL excluded. -/
def parseHeaderValue (v : String) : Except Unit String :=
  if v.data.all (fun c => c.toNat = 9 ∨ (32 ≤ c.toNat ∧ c.toNat ≠ 127)) then .ok v
  else .error ()

/-- Model of `HeaderMap::insert`: a later insert of the same name replaces
the earlier entry. -/
def headerMapInsert (m : List (String × String)) (k v : String) : List (String × String) :=
  m.filter (fun p => p.1 ≠ k) ++ [(k, v)]

/-- Rust `parse_headers` from src/headers.rs, iterating over the lines with the
accumulated header map. A line without a colon yields `InvalidFormat`;
a key or value the `http` crate rejects yields `InvalidName`/`InvalidValue`. -/
def parseHeadersGo (acc : List (String × String)) :
    List String → Except HeaderError (List (String × String))
  | [] => .ok acc
  | h :: rest =>
    match splitOnceColon h with
    | some (k, v) =>
      let k := rustTrim k
      let v := rustTrim v
      match parseHeaderName k with
      | .error _ => .error (.InvalidName k)
      | .ok name =>
        match parseHeaderValue v with
        | .error _ => .error (.InvalidValue v)
        | .ok value => parseHeadersGo (headerMapInsert acc name value) rest
    | none => .error (.InvalidFormat h)

/-- Rust `parse_headers` from src/headers.rs. -/
def parse_headers (headers : List String) : Except HeaderError (List (String × String)) :=
  parseHeadersGo [] headers

/-! ## src/tui.rs data model -/

/-- Rust `HttpMethodType` from src/tui.rs. -/
inductive HttpMethodType where
  | Get | Post | Put | Delete
  deriving DecidableEq, Repr

/-- The `Display` impl of `HttpMethodType` in src/tui.rs. -/
def methodToString : HttpMethodType → String
  | .Get => "GET"
  | .Post => "POST"
  | .Put => "PUT"
  | .Delete => "DELETE"

/-- Rust `HttpRequest` from src/tui.rs. -/
structure HttpRequest where
  method : HttpMethodType
  url : String
  headers : List String
  body : Option String
  is_json : Bool
  deriving DecidableEq, Repr

/-- Rust `HttpResponse` from src/tui.rs. -/
structure HttpResponse where
  status : Nat
  status_text : String
  headers : List (String × String)
  body : String
  duration_ms : Nat
  deriving DecidableEq, Repr

/-- Rust `InputMode` from src/tui.rs. -/
inductive InputMode where
  | Normal | EditingUrl | EditingHeaders | EditingBody
  deriving DecidableEq, Repr

/-- Rust `ActivePanel` from src/tui.rs. -/
inductive ActivePanel where
  | Request | Response | History
  deriving DecidableEq, Repr

/-- Rust `App` from src/tui.rs. The ratatui `history_state : ListState` field is a
terminal-widget scratch object (selection highlight) and is not part of the
modelled state; the three cursor-position fields are kept (the code never
updates them after `App::default`). -/
structure App where
  should_quit : Bool
  input_mode : InputMode
  active_panel : ActivePanel
  method_index : Nat
  url : String
  headers_input : String
  body_input : String
  is_json_body : Bool
  current_response : Option HttpResponse
  status_message : String
  request_history : List (HttpRequest × Option HttpResponse)
  url_cursor_position : Nat
  headers_cursor_position : Nat
  body_cursor_position : Nat
  deriving DecidableEq, Repr

/-- Rust `App::default` from src/tui.rs. -/
def App.default : App where
  should_quit := false
  input_mode := .Normal
  active_panel := .Request
  method_index := 0
  url := "https://httpbin.org/get"
  headers_input := ""
  body_input := ""
  is_json_body := false
  current_response := none
  status_message := "Ready"
  request_history := []
  url_cursor_position := 0
  headers_cursor_position := 0
  body_cursor_position := 0

/-- Rust `App::get_methods` from src/tui.rs. -/
def get_methods : List HttpMethodType := [.Get, .Post, .Put, .Delete]

/-- Rust `App::current_method` from src/tui.rs. Rust indexes the vector (and
would panic out of range); the method index is always in range (see the
method-index invariant), so a default is immaterial. -/
def current_method (app : App) : HttpMethodType :=
  get_methods.getD app.method_index .Get

/-- Rust `App::next_method` from src/tui.rs. -/
def next_method (app : App) : App :=
  { app with method_index := (app.method_index + 1) % get_methods.length }

/-- Rust `App::previous_method` from src/tui.rs. -/
def previous_method (app : App) : App :=
  { app with method_index :=
      if app.method_index = 0 then get_methods.length - 1 else app.method_index - 1 }

/-! ## src/json.rs and its `serde_json` collaborator

`serde_json` is an external crate; the parser and pretty-printer below model
its documented behaviour on JSON text. Number tokens are kept verbatim
(`serde_json` re-serialises from the parsed numeric value, which coincides
with the source token for plain integer literals as used here), and a
`\u` escape is decoded to the single scalar it names (surrogate pairs are
not combined). Error messages are modelled, not byte-identical to serde. -/

/-- A parsed JSON document, modelling `serde_json::Value`. -/
inductive JValue where
  | jnull
  | jbool (b : Bool)
  | jnum (raw : String)
  | jstr (s : String)
  | jarr (xs : List JValue)
  | jobj (kvs : List (String × JValue))
  deriving Repr

/-- The opening-brace character, written by code point to keep literals tidy. -/
def lbraceChar : Char := Char.ofNat 123

/-- The closing-brace character. -/
def rbraceChar : Char := Char.ofNat 125

/-- JSON insignificant whitespace: space, tab, line feed, carriage return. -/
def isJsonWs (c : Char) : Bool :=
  c = ' ' || c = '\t' || c = '\n' || c = '\r'

/-- Drop leading JSON whitespace. -/
def skipWs : List Char → List Char
  | [] => []
  | c :: cs => if isJsonWs c then skipWs cs else c :: cs

/-- Consume an expected literal keyword tail such as `rue` of `true`. -/
def expectChars : List Char → List Char → Option (List Char)
  | [], cs => some cs
  | _, [] => none
  | e :: es, c :: cs => if c = e then expectChars es cs else none

/-- Value of a hex digit, if any. -/
def hexDigitVal (c : Char) : Option Nat :=
  if c.isDigit then some (c.toNat - 48)
  else if 97 ≤ c.toNat ∧ c.toNat ≤ 102 then some (c.toNat - 87)
  else if 65 ≤ c.toNat ∧ c.toNat ≤ 70 then some (c.toNat - 55)
  else none

/-- Parse the body of a JSON string after the opening quote, handling
escapes; raw control characters are rejected as serde does. -/
def parseStringBody : List Char → String → Except String (String × List Char)
  | [], _ => .error "EOF while parsing a string"
  | c :: cs, acc =>
    if c = '"' then .ok (acc, cs)
    else if c = '\\' then
      match cs with
      | [] => .error "EOF while parsing a string"
      | e :: cs2 =>
        if e = '"' then parseStringBody cs2 (acc.push '"')
        else if e = '\\' then parseStringBody cs2 (acc.push '\\')
        else if e = '/' then parseStringBody cs2 (acc.push '/')
        else if e = 'b' then parseStringBody cs2 (acc.push (Char.ofNat 8))
        else if e = 'f' then parseStringBody cs2 (acc.push (Char.ofNat 12))
        else if e = 'n' then parseStringBody cs2 (acc.push '\n')
        else if e = 'r' then parseStringBody cs2 (acc.push '\r')
        else if e = 't' then parseStringBody cs2 (acc.push '\t')
        else if e = 'u' then
          match cs2 with
          | h1 :: h2 :: h3 :: h4 :: cs3 =>
            match hexDigitVal h1, hexDigitVal h2, hexDigitVal h3, hexDigitVal h4 with
            | some a, some b, some c3, some d =>
              parseStringBody cs3 (acc.push (Char.ofNat (a * 4096 + b * 256 + c3 * 16 + d)))
            | _, _, _, _ => .error "invalid unicode escape"
          | _ => .error "EOF while parsing a string"
        else .error "invalid escape"
    else if c.toNat < 32 then .error "control character in string"
    else parseStringBody cs (acc.push c)

/-- Split a leading run of decimal digits from the input. -/
def takeDigits : List Char → (List Char × List Char)
  | [] => ([], [])
  | c :: cs =>
    if c.isDigit then
      let (ds, rest) := takeDigits cs
      (c :: ds, rest)
    else ([], c :: cs)

/-- Parse a JSON number token, keeping it verbatim. Follows the JSON
grammar serde enforces: optional minus, `0` or a nonzero-led digit run,
optional fraction, optional exponent. -/
def parseNumberToken (cs : List Char) : Except String (String × List Char) := do
  let (sign, cs1) :=
    match cs with
    | c :: rest => if c = '-' then (['-'], rest) else (([] : List Char), cs)
    | [] => ([], cs)
  let (intPart, cs2) ← (do
    match cs1 with
    | [] => Except.error "EOF while parsing a value"
    | c :: rest =>
      if c = '0' then Except.ok (['0'], rest)
      else if c.isDigit then
        let (ds, r) := takeDigits rest
        Except.ok (c :: ds, r)
      else Except.error "invalid number")
  let (fracPart, cs3) ← (do
    match cs2 with
    | c :: rest =>
      if c = '.' then
        let (ds, r) := takeDigits rest
        if ds.isEmpty then Except.error "invalid number"
        else Except.ok ('.' :: ds, r)
      else Except.ok (([] : List Char), cs2)
    | [] => Except.ok ([], cs2))
  let (expPart, cs4) ← (do
    match cs3 with
    | c :: rest =>
      if c = 'e' ∨ c = 'E' then
        let (sgn, rest2) :=
          match rest with
          | s :: r2 => if s = '+' ∨ s = '-' then ([s], r2) else (([] : List Char), rest)
          | [] => ([], rest)
        let (ds, r) := takeDigits rest2
        if ds.isEmpty then Except.error "invalid number"
        else Except.ok (c :: (sgn ++ ds), r)
      else Except.ok (([] : List Char), cs3)
    | [] => Except.ok ([], cs3))
  Except.ok (String.mk (sign ++ intPart ++ fracPart ++ expPart), cs4)

mutual

/-- Parse one JSON value (leading whitespace skipped), fuel-indexed. -/
def parseValue : Nat → List Char → Except String (JValue × List Char)
  | 0, _ => .error "recursion limit exceeded"
  | Nat.succ fuel, cs =>
    match skipWs cs with
    | [] => .error "EOF while parsing a value"
    | c :: rest =>
      if c = '"' then
        match parseStringBody rest "" with
        | .ok (s, r) => .ok (.jstr s, r)
        | .error e => .error e
      else if c = lbraceChar then
        match skipWs rest with
        | d :: r2 =>
          if d = rbraceChar then .ok (.jobj [], r2)
          else parseObjMembers fuel (d :: r2) []
        | [] => .error "EOF while parsing an object"
      else if c = '[' then
        match skipWs rest with
        | d :: r2 =>
          if d = ']' then .ok (.jarr [], r2)
          else parseArrayElems fuel (d :: r2) []
        | [] => .error "EOF while parsing a list"
      else if c = 't' then
        match expectChars ['r', 'u', 'e'] rest with
        | some r => .ok (.jbool true, r)
        | none => .error "expected ident"
      else if c = 'f' then
        match expectChars ['a', 'l', 's', 'e'] rest with
        | some r => .ok (.jbool false, r)
        | none => .error "expected ident"
      else if c = 'n' then
        match expectChars ['u', 'l', 'l'] rest with
        | some r => .ok (.jnull, r)
        | none => .error "expected ident"
      else if c = '-' ∨ c.isDigit then
        match parseNumberToken (c :: rest) with
        | .ok (tok, r) => .ok (.jnum tok, r)
        | .error e => .error e
      else .error "expected value"

/-- Parse the elements of a nonempty JSON array, fuel-indexed. -/
def parseArrayElems : Nat → List Char → List JValue →
    Except String (JValue × List Char)
  | 0, _, _ => .error "recursion limit exceeded"
  | Nat.succ fuel, cs, acc =>
    match parseValue fuel cs with
    | .error e => .error e
    | .ok (v, rest) =>
      match skipWs rest with
      | c :: r2 =>
        if c = ',' then parseArrayElems fuel r2 (acc ++ [v])
        else if c = ']' then .ok (.jarr (acc ++ [v]), r2)
        else .error "expected comma or end of list"
      | [] => .error "EOF while parsing a list"

/-- Parse the members of a nonempty JSON object, fuel-indexed. -/
def parseObjMembers : Nat → List Char → List (String × JValue) →
    Except String (JValue × List Char)
  | 0, _, _ => .error "recursion limit exceeded"
  | Nat.succ fuel, cs, acc =>
    match skipWs cs with
    | c :: rest =>
      if c = '"' then
        match parseStringBody rest "" with
        | .error e => .error e
        | .ok (k, r2) =>
          match skipWs r2 with
          | d :: r3 =>
            if d = ':' then
              match parseValue fuel r3 with
              | .error e => .error e
              | .ok (v, r4) =>
                match skipWs r4 with
                | e2 :: r5 =>
                  if e2 = ',' then parseObjMembers fuel r5 (acc ++ [(k, v)])
                  else if e2 = rbraceChar then .ok (.jobj (acc ++ [(k, v)]), r5)
                  else .error "expected comma or end of object"
                | [] => .error "EOF while parsing an object"
            else .error "expected colon"
          | [] => .error "EOF while parsing an object"
      else .error "key must be a string"
    | [] => .error "EOF while parsing an object"

end

/-- Model of `serde_json::from_str::<Value>`: one JSON document followed
only by whitespace. -/
def jsonParse (s : String) : Except String JValue :=
  let cs := s.toList
  match parseValue (cs.length + 2) cs with
  | .error e => .error e
  | .ok (v, rest) => if (skipWs rest).isEmpty then .ok v else .error "trailing characters"

/-- Escape one character for JSON string output as serde does: quote,
backslash, short escapes for the common control characters, `\u00xx`
(lowercase hex) for the rest below space, everything else verbatim. -/
def escapeJsonChar (c : Char) : String :=
  if c = '"' then "\\\""
  else if c = '\\' then "\\\\"
  else if c.toNat = 8 then "\\b"
  else if c = '\t' then "\\t"
  else if c = '\n' then "\\n"
  else if c.toNat = 12 then "\\f"
  else if c = '\r' then "\\r"
  else if c.toNat < 32 then
    let hexDigit := fun (n : Nat) =>
      if n < 10 then Char.ofNat (48 + n) else Char.ofNat (87 + n)
    String.mk ['\\', 'u', '0', '0', hexDigit (c.toNat / 16), hexDigit (c.toNat % 16)]
  else c.toString

/-- Serialise a string with quotes and escapes. -/
def renderJsonString (s : String) : String :=
  "\"" ++ String.join (s.toList.map escapeJsonChar) ++ "\""

/-- Indentation used by `serde_json::to_string_pretty`: two spaces per level. -/
def prettyIndent (n : Nat) : String :=
  String.join (List.replicate n "  ")

mutual

/-- Model of `serde_json::to_string_pretty` at a given indent level. -/
def renderPretty : Nat → JValue → String
  | _, .jnull => "null"
  | _, .jbool true => "true"
  | _, .jbool false => "false"
  | _, .jnum raw => raw
  | _, .jstr s => renderJsonString s
  | _, .jarr [] => "[]"
  | ind, .jarr (x :: xs) =>
    "[\n" ++ String.intercalate ",\n"
        ((renderPrettyList (ind + 1) (x :: xs)).map (fun l => prettyIndent (ind + 1) ++ l))
      ++ "\n" ++ prettyIndent ind ++ "]"
  | _, .jobj [] => String.mk [lbraceChar, rbraceChar]
  | ind, .jobj (kv :: kvs) =>
    String.mk [lbraceChar] ++ "\n" ++ String.intercalate ",\n"
        ((renderPrettyMembers (ind + 1) (kv :: kvs)).map (fun l => prettyIndent (ind + 1) ++ l))
      ++ "\n" ++ prettyIndent ind ++ String.mk [rbraceChar]

/-- Render array elements, one line each (before indentation is added). -/
def renderPrettyList : Nat → List JValue → List String
  | _, [] => []
  | ind, x :: xs => renderPretty ind x :: renderPrettyList ind xs

/-- Render object members, one `"key": value` line each. -/
def renderPrettyMembers : Nat → List (String × JValue) → List String
  | _, [] => []
  | ind, (k, v) :: kvs =>
    (renderJsonString k ++ ": " ++ renderPretty ind v) :: renderPrettyMembers ind kvs

end

/-- Rust `JsonError` from src/json.rs; the serde error inside `ParseError` is
modelled by its message string. -/
inductive JsonError where
  | InvalidJSon (text : String)
  | ParseError (msg : String)
  deriving DecidableEq, Repr

/-- The `Display` impl of `JsonError` in src/json.rs. -/
def jsonErrorMessage : JsonError → String
  | .InvalidJSon text => s!"Invalid JSON: {text}"
  | .ParseError msg => s!"JSON parse error: {msg}"

/-- Rust `is_json_like` from src/json.rs: trimmed text starts with a brace and
ends with a brace, or starts with a bracket and ends with a bracket. -/
def is_json_like (text : String) : Bool :=
  let trimmed := rustTrim text
  (startsWithChar trimmed lbraceChar && endsWithChar trimmed rbraceChar) ||
  (startsWithChar trimmed '[' && endsWithChar trimmed ']')

/-- Rust `pretty_print_json` from src/json.rs. -/
def pretty_print_json (text : String) : Except JsonError String :=
  if ¬ is_json_like text then
    .error (.InvalidJSon "Text doesn\x27t look like JSON")
  else
    match jsonParse text with
    | .error m => .error (.ParseError m)
    | .ok v => .ok (renderPretty 0 v)

/-- Rust `pretty_print_json_safe` from src/json.rs: fall back to the original
text when pretty-printing fails. -/
def pretty_print_json_safe (text : String) : String :=
  match pretty_print_json text with
  | .ok pretty => pretty
  | .error _ => text

/-- Rust `validate_json` from src/json.rs. -/
def validate_json (text : String) : Except JsonError Unit :=
  match jsonParse text with
  | .ok _ => .ok ()
  | .error m => .error (.ParseError m)

/-! ## The send algorithm (`App::send_request` in src/tui.rs)

The `reqwest::RequestBuilder` is modelled by `BuiltRequest`: the method and
URL it was created with, the header entries attached so far (in attachment
order; user headers go through the `http`-crate name normalisation, so the
`Content-Type` literal is recorded under its normalised lowercase name),
and the attached body. The network round trip is an oracle from the built
request to either a transport-error message or a raw response; `reqwest`
and the wall clock are outside the repository. A failure of
`response.text()` is folded into the network-error case. -/

/-- The outbound request accumulated by the `reqwest` builder calls. -/
structure BuiltRequest where
  method : HttpMethodType
  url : String
  headers : List (String × String)
  body : Option String
  deriving DecidableEq, Repr

/-- What the network returns on a completed round trip: status code,
status text (`response.status().to_string()`), header pairs
(`value.to_str().unwrap_or("")` already applied), and the body text. -/
structure RawResp where
  status : Nat
  status_text : String
  headers : List (String × String)
  body : String
  deriving DecidableEq, Repr

/-- The three failure classes of one send attempt, as they reach the `?`
operator in `App::send_request`: a `HeaderError` from
`add_headers_to_request`, a `JsonError` from `validate_json`, or a
`reqwest` transport error modelled by its display message. -/
inductive SendError where
  | header (e : HeaderError)
  | json (e : JsonError)
  | network (msg : String)
  deriving DecidableEq, Repr

/-- The `Display` text of the boxed error as `run_app` formats it. -/
def sendErrorMessage : SendError → String
  | .header e => headerErrorMessage e
  | .json e => jsonErrorMessage e
  | .network msg => msg

/-- Rust `add_headers_to_request` from src/headers.rs: leave the request alone
for an empty list, otherwise parse and attach the header map. -/
def add_headers_to_request (request : BuiltRequest) (headers : List String) :
    Except HeaderError BuiltRequest :=
  if headers.isEmpty then .ok request
  else
    match parse_headers headers with
    | .error e => .error e
    | .ok m => .ok { request with headers := request.headers ++ m }

/-- The header lines retained from the headers buffer: split into lines,
discard lines empty after trimming (src/tui.rs lines 146-150). -/
def retainedHeaderLines (headersInput : String) : List String :=
  (rustLines headersInput).filter (fun line => ¬ rustTrim line = "")

/-- The builder as created for the selected method and URL
(src/tui.rs lines 152-157). -/
def baseRequest (app : App) : BuiltRequest :=
  { method := current_method app, url := app.url, headers := [], body := none }

/-- The pure pre-dispatch part of `App::send_request` (src/tui.rs lines
146-170): attach the user headers, then the body — validated and marked
`application/json` when the JSON flag is set — failing without any network
interaction on a header or JSON error. -/
def buildRequest (app : App) : Except SendError BuiltRequest :=
  match add_headers_to_request (baseRequest app) (retainedHeaderLines app.headers_input) with
  | .error e => .error (.header e)
  | .ok req =>
    if rustTrim app.body_input = "" then .ok req
    else if app.is_json_body then
      match validate_json app.body_input with
      | .error e => .error (.json e)
      | .ok _ =>
        .ok { req with
                headers := req.headers ++ [("content-type", "application/json")],
                body := some app.body_input }
    else .ok { req with body := some app.body_input }

/-- The response-body post-processing of src/tui.rs lines 186-190: bodies
whose trimmed text starts with a brace or bracket go through
`pretty_print_json_safe`, everything else is stored verbatim. -/
def processResponseBody (body : String) : String :=
  if startsWithChar (rustTrim body) lbraceChar || startsWithChar (rustTrim body) '[' then
    pretty_print_json_safe body
  else body

/-- The `HttpResponse` record built on a successful round trip
(src/tui.rs lines 175-198). -/
def makeResponseRecord (raw : RawResp) (durationMs : Nat) : HttpResponse :=
  { status := raw.status
    status_text := raw.status_text
    headers := raw.headers
    body := processResponseBody raw.body
    duration_ms := durationMs }

/-- The `HttpRequest` record describing what was sent
(src/tui.rs lines 200-206). -/
def makeRequestRecord (app : App) : HttpRequest :=
  { method := current_method app
    url := app.url
    headers := retainedHeaderLines app.headers_input
    body := if rustTrim app.body_input = "" then none else some app.body_input
    is_json := app.is_json_body }

/-- Rust `App::send_request` from src/tui.rs. Returns the mutated `App`
together with the `Result` the caller sees. On any failure only the
status message has been touched (it was set to `"Sending request..."` at
the start of the attempt); on success the history, current response,
active panel and status message are all updated. -/
def send_request (app : App) (net : BuiltRequest → Except String RawResp)
    (durationMs : Nat) : App × Except SendError Unit :=
  match buildRequest app with
  | .error e => ({ app with status_message := "Sending request..." }, .error e)
  | .ok built =>
    match net built with
    | .error msg => ({ app with status_message := "Sending request..." }, .error (.network msg))
    | .ok raw =>
      let resp := makeResponseRecord raw durationMs
      ({ app with
          request_history := app.request_history ++ [(makeRequestRecord app, some resp)],
          current_response := some resp,
          active_panel := .Response,
          status_message := s!"Request completed in {durationMs}ms" }, .ok ())

/-! ## Transition logic (`run_app` in src/tui.rs) -/

/-- The environment of one send trigger: the network oracle and the
elapsed wall-clock milliseconds of the round trip. -/
structure SendEnv where
  net : BuiltRequest → Except String RawResp
  durationMs : Nat

/-- The Enter-in-Normal-mode handler of `run_app` (src/tui.rs lines
428-432): run the send and, on failure, render the error into the status
message. -/
def handleSend (app : App) (env : SendEnv) : App :=
  match send_request app env.net env.durationMs with
  | (a, .ok _) => a
  | (a, .error e) => { a with status_message := "Error: " ++ sendErrorMessage e }

/-- The key-press events `run_app` dispatches on (crossterm key codes of
kind `Press`; `otherKey` stands for every code the match arms ignore). -/
inductive KeyEvent where
  | charKey (c : Char)
  | enter
  | esc
  | backspace
  | tab
  | otherKey
  deriving Repr

/-- One input event: the pressed key, with the send environment consumed
if this press triggers a send. -/
structure InputEvent where
  key : KeyEvent
  env : SendEnv

/-- The panel rotation of the Tab arm in `run_app`. -/
def nextPanel : ActivePanel → ActivePanel
  | .Request => .Response
  | .Response => .History
  | .History => .Request

/-- One iteration of the `run_app` event dispatch (src/tui.rs lines
414-471), given that an input event arrived. -/
def processEvent (app : App) (ev : InputEvent) : App :=
  match app.input_mode with
  | .Normal =>
    match ev.key with
    | .charKey c =>
      if c = 'q' then { app with should_quit := true }
      else if c = 'u' then { app with input_mode := .EditingUrl }
      else if c = 'h' then { app with input_mode := .EditingHeaders }
      else if c = 'b' then { app with input_mode := .EditingBody }
      else if c = 'j' then { app with is_json_body := !app.is_json_body }
      else if c = 'm' then next_method app
      else if c = 'M' then previous_method app
      else app
    | .enter => handleSend app ev.env
    | .tab => { app with active_panel := nextPanel app.active_panel }
    | _ => app
  | .EditingUrl =>
    match ev.key with
    | .esc => { app with input_mode := .Normal }
    | .enter => { app with input_mode := .Normal }
    | .charKey c => { app with url := app.url.push c }
    | .backspace => { app with url := rustPop app.url }
    | _ => app
  | .EditingHeaders =>
    match ev.key with
    | .esc => { app with input_mode := .Normal }
    | .charKey c => { app with headers_input := app.headers_input.push c }
    | .backspace => { app with headers_input := rustPop app.headers_input }
    | .enter => { app with headers_input := app.headers_input.push '\n' }
    | _ => app
  | .EditingBody =>
    match ev.key with
    | .esc => { app with input_mode := .Normal }
    | .charKey c => { app with body_input := app.body_input.push c }
    | .backspace => { app with body_input := rustPop app.body_input }
    | .enter => { app with body_input := app.body_input.push '\n' }
    | _ => app

/-- Process a list of input events in order. -/
def processEvents (app : App) (evs : List InputEvent) : App :=
  evs.foldl processEvent app

/-- The states the interactive session can reach: `App::default` at
session start, then any number of dispatched input events. -/
inductive Reachable : App → Prop where
  | init : Reachable App.default
  | step {a : App} (ev : InputEvent) : Reachable a → Reachable (processEvent a ev)

/-! ## Rendering (`ui` and the draw functions in src/tui.rs)

The ratatui widgets are modelled by the data each draw call puts on
screen, tagged with the screen area it is rendered into: the status bar
row, the left (request) half, or the right (secondary) half. -/

/-- Screen region a widget is rendered into. -/
inductive PanelArea where
  | statusArea
  | requestArea
  | secondaryArea
  deriving DecidableEq, Repr

/-- The content of one rendered widget. -/
inductive Widget where
  | statusBar (text : String)
  | requestPanel (methodUrl : String) (headersBuf : String) (bodyTitle : String)
      (bodyBuf : String) (focus : InputMode)
  | responsePlaceholder (text : String)
  | responseView (statusLine : String) (headerLines : List (String × String)) (body : String)
  | historyView (items : List String)
  deriving DecidableEq, Repr

/-- Rust `draw_request_panel` from src/tui.rs: method and URL on one line, the
headers buffer, and the body buffer under a title reflecting the JSON
flag; the active input mode drives the highlight styling. -/
def drawRequestPanel (app : App) : Widget :=
  .requestPanel (methodToString (current_method app) ++ " " ++ app.url)
    app.headers_input
    (if app.is_json_body then "Body (JSON)" else "Body")
    app.body_input
    app.input_mode

/-- The status line of the response panel: status code, status text, and
the duration in parentheses. -/
def responseStatusLine (r : HttpResponse) : String :=
  toString r.status ++ " " ++ r.status_text ++ " (" ++ toString r.duration_ms ++ "ms)"

/-- Rust `draw_response_panel` from src/tui.rs: placeholder text while no
response exists, otherwise the status line, the first four response
headers, and the stored body. -/
def drawResponsePanel (app : App) : Widget :=
  match app.current_response with
  | some r =>
    .responseView (responseStatusLine r) (r.headers.take 4) r.body
  | none => .responsePlaceholder "No response yet\n\nPress Enter to send request"

/-- The line `draw_history_panel` renders for entry `i` of the history. -/
def historyItemText (i : Nat) (entry : HttpRequest × Option HttpResponse) : String :=
  let status :=
    match entry.2 with
    | some r => toString r.status
    | none => "..."
  toString (i + 1) ++ ": " ++ methodToString entry.1.method ++ " " ++ entry.1.url ++
    " [" ++ status ++ "]"

/-- Rust `draw_history_panel` from src/tui.rs: one numbered line per entry. -/
def drawHistoryPanel (app : App) : Widget :=
  .historyView (app.request_history.enum.map (fun p => historyItemText p.1 p.2))

/-- Rust `ui` from src/tui.rs: the status bar, the request panel into the left
half, then one more draw call chosen by `active_panel` — the request panel
again (into the left half) when `Request` is active, otherwise the
response or history widget into the right half. -/
def ui (app : App) : List (PanelArea × Widget) :=
  [(.statusArea, .statusBar
      (" Status: " ++ app.status_message ++ " | Press \x27q\x27 to quit, \x27h\x27 for help")),
   (.requestArea, drawRequestPanel app)] ++
  (match app.active_panel with
   | .Request => [(.requestArea, drawRequestPanel app)]
   | .Response => [(.secondaryArea, drawResponsePanel app)]
   | .History => [(.secondaryArea, drawHistoryPanel app)])

/-- The widgets a frame renders into the right (secondary) half. -/
def secondaryWidgets (app : App) : List Widget :=
  (ui app).filterMap (fun p => if p.1 = .secondaryArea then some p.2 else none)

/-! ## Concrete instances used to instantiate the theorems -/

/-- A network oracle answering every request with a plain 200 response. -/
def okNet200 : BuiltRequest → Except String RawResp :=
  fun _ => .ok { status := 200, status_text := "200 OK",
                 headers := [("content-type", "text/plain"), ("server", "t")], body := "hi" }

/-- A network oracle that fails every dispatch with a transport error. -/
def failNet : BuiltRequest → Except String RawResp :=
  fun _ => .error "error sending request"

/-! ## Helper lemmas about one send attempt -/

/-- Case analysis of `send_request`: a pre-dispatch failure, a network
failure, or a success, each with the exact resulting state. -/
theorem send_request_elim (app : App) (net : BuiltRequest → Except String RawResp) (dur : Nat) :
    (∃ e, buildRequest app = .error e ∧
      send_request app net dur = ({ app with status_message := "Sending request..." }, .error e)) ∨
    (∃ built msg, buildRequest app = .ok built ∧ net built = .error msg ∧
      send_request app net dur =
        ({ app with status_message := "Sending request..." }, .error (.network msg))) ∨
    (∃ built raw, buildRequest app = .ok built ∧ net built = .ok raw ∧
      send_request app net dur =
        ({ app with
            request_history := app.request_history ++
              [(makeRequestRecord app, some (makeResponseRecord raw dur))],
            current_response := some (makeResponseRecord raw dur),
            active_panel := .Response,
            status_message := s!"Request completed in {dur}ms" }, .ok ())) := by
  unfold send_request
  cases hb : buildRequest app with
  | error e => exact .inl ⟨e, rfl, rfl⟩
  | ok built =>
    cases hn : net built with
    | error msg => exact .inr (.inl ⟨built, msg, rfl, hn, by simp only [hn]⟩)
    | ok raw => exact .inr (.inr ⟨built, raw, rfl, hn, by simp only [hn]⟩)

/-- On a failed send attempt, `run_app` leaves everything but the status
message alone. -/
theorem handleSend_error (app : App) (env : SendEnv) (e : SendError)
    (h : (send_request app env.net env.durationMs).2 = .error e) :
    handleSend app env = { app with status_message := "Error: " ++ sendErrorMessage e } := by
  rcases send_request_elim app env.net env.durationMs with
    ⟨e2, _, hs⟩ | ⟨b, m, _, _, hs⟩ | ⟨b, r, _, _, hs⟩
  · rw [hs] at h
    cases h
    unfold handleSend
    rw [hs]
  · rw [hs] at h
    cases h
    unfold handleSend
    rw [hs]
  · rw [hs] at h
    cases h

/-- On a successful send attempt, `run_app` keeps the state
`send_request` produced. -/
theorem handleSend_ok (app : App) (env : SendEnv)
    (h : (send_request app env.net env.durationMs).2 = .ok ()) :
    handleSend app env = (send_request app env.net env.durationMs).1 := by
  unfold handleSend
  rcases send_request_elim app env.net env.durationMs with
    ⟨e2, _, hs⟩ | ⟨b, m, _, _, hs⟩ | ⟨b, r, _, _, hs⟩
  · simp [hs] at h
  · simp [hs] at h
  · simp only [hs]

/-! ## Claim C1 -/

/-- Claim C1: for every send attempt that fails (header error, JSON error,
or network error), the history list and the current-response slot are
exactly as they were before the attempt; of the `App` state, only the
status message changes, and it is set to the human-readable rendering
`"Error: "` followed by the failure's display text. -/
theorem claim_C1_failed_send_changes_only_status (app : App) (env : SendEnv) (e : SendError)
    (h : (send_request app env.net env.durationMs).2 = .error e) :
    (handleSend app env).request_history = app.request_history ∧
    (handleSend app env).current_response = app.current_response ∧
    handleSend app env = { app with status_message := "Error: " ++ sendErrorMessage e } := by
  rw [handleSend_error app env e h]
  exact ⟨rfl, rfl, rfl⟩

/-- The state composing a send with a colonless header line, used to
instantiate the failure theorems. -/
def appBadHeader : App :=
  { App.default with headers_input := "X-Foo bar" }

/-- Instantiation of C1 at a concrete failing attempt: the malformed
header line `"X-Foo bar"` with a network oracle that would answer 200. -/
theorem claim_C1_witness :
    (handleSend appBadHeader ⟨okNet200, 7⟩).request_history = [] ∧
    (handleSend appBadHeader ⟨okNet200, 7⟩).current_response = none ∧
    handleSend appBadHeader ⟨okNet200, 7⟩ =
      { appBadHeader with status_message :=
          "Error: " ++ sendErrorMessage (.header (.InvalidFormat "X-Foo bar")) } :=
  claim_C1_failed_send_changes_only_status appBadHeader ⟨okNet200, 7⟩
    (.header (.InvalidFormat "X-Foo bar")) rfl

/-! ## Claim C3 -/

/-- Claim C3: every send attempt that completes successfully appends
exactly one `(HttpRequest, HttpResponse)` pair to the end of the history,
makes that pair's response the current response, switches the active panel
to `Response`, and reports the elapsed milliseconds in the status
message. -/
theorem claim_C3_successful_send_records_once (app : App) (net : BuiltRequest → Except String RawResp)
    (dur : Nat) (h : (send_request app net dur).2 = .ok ()) :
    ∃ req resp,
      (handleSend app ⟨net, dur⟩).request_history = app.request_history ++ [(req, some resp)] ∧
      (handleSend app ⟨net, dur⟩).current_response = some resp ∧
      (handleSend app ⟨net, dur⟩).active_panel = .Response ∧
      (handleSend app ⟨net, dur⟩).status_message = s!"Request completed in {dur}ms" ∧
      resp.duration_ms = dur := by
  have hh : handleSend app ⟨net, dur⟩ = (send_request app net dur).1 := handleSend_ok app ⟨net, dur⟩ h
  rcases send_request_elim app net dur with
    ⟨e2, _, hs⟩ | ⟨b, m, _, _, hs⟩ | ⟨b, r, _, _, hs⟩
  · rw [hs] at h; cases h
  · rw [hs] at h; cases h
  · refine ⟨makeRequestRecord app, makeResponseRecord r dur, ?_, ?_, ?_, ?_, rfl⟩ <;>
      rw [hh, hs]

/-- Instantiation of C3: a successful GET from the default state through
the 200 oracle. -/
theorem claim_C3_witness :
    ∃ req resp,
      (handleSend App.default ⟨okNet200, 12⟩).request_history = [] ++ [(req, some resp)] ∧
      (handleSend App.default ⟨okNet200, 12⟩).current_response = some resp ∧
      (handleSend App.default ⟨okNet200, 12⟩).active_panel = .Response ∧
      (handleSend App.default ⟨okNet200, 12⟩).status_message = "Request completed in 12ms" ∧
      resp.duration_ms = 12 :=
  claim_C3_successful_send_records_once App.default okNet200 12 rfl

/-! ## Claim C2 -/

/-- If some line of the input still lacks a colon, `parse_headers` fails
with some `HeaderError` (an earlier line may fail first, but failure is
certain). -/
theorem parseHeadersGo_error_of_colonless (lines : List String) :
    ∀ acc, (∃ l ∈ lines, splitOnceColon l = none) →
    ∃ he, parseHeadersGo acc lines = .error he := by
  induction lines with
  | nil =>
    intro acc h
    rcases h with ⟨l, hl, _⟩
    cases hl
  | cons hd tl ih =>
    intro acc h
    rcases h with ⟨l, hl, hnone⟩
    cases hsp : splitOnceColon hd with
    | none => exact ⟨.InvalidFormat hd, by simp [parseHeadersGo, hsp]⟩
    | some kv =>
      have hltl : l ∈ tl := by
        rcases List.mem_cons.mp hl with rfl | htl
        · rw [hsp] at hnone; cases hnone
        · exact htl
      obtain ⟨k, v⟩ := kv
      cases hpn : parseHeaderName (rustTrim k) with
      | error u => exact ⟨.InvalidName (rustTrim k), by simp [parseHeadersGo, hsp, hpn]⟩
      | ok name =>
        cases hpv : parseHeaderValue (rustTrim v) with
        | error u => exact ⟨.InvalidValue (rustTrim v), by simp [parseHeadersGo, hsp, hpn, hpv]⟩
        | ok value =>
          rcases ih (headerMapInsert acc name value) ⟨l, hltl, hnone⟩ with ⟨he, hhe⟩
          exact ⟨he, by simp [parseHeadersGo, hsp, hpn, hpv, hhe]⟩

/-- A pre-dispatch build failure fixes the whole outcome of the attempt,
whatever the network oracle would have answered. -/
theorem send_request_of_build_error (app : App) (e : SendError)
    (h : buildRequest app = .error e) (net : BuiltRequest → Except String RawResp) (dur : Nat) :
    send_request app net dur = ({ app with status_message := "Sending request..." }, .error e) := by
  unfold send_request
  rw [h]

/-- Claim C2, amended: (a) a send attempt one of whose retained header
lines lacks a colon fails with some `HeaderError`, with an outcome
independent of the network oracle and the clock — no dispatch happens;
(b) a send attempt whose retained header lines apply successfully, whose
body buffer is non-empty after trimming, and whose is-JSON flag is set
fails the same way with a `JsonError` when the body fails JSON
validation. -/
theorem claim_C2_predispatch_failures (app : App) :
    ((∃ l ∈ retainedHeaderLines app.headers_input, splitOnceColon l = none) →
      ∃ he : HeaderError, ∀ net dur, send_request app net dur =
        ({ app with status_message := "Sending request..." }, .error (.header he))) ∧
    (∀ req0 e, rustTrim app.body_input ≠ "" → app.is_json_body = true →
      add_headers_to_request (baseRequest app) (retainedHeaderLines app.headers_input) = .ok req0 →
      validate_json app.body_input = .error e →
      ∀ net dur, send_request app net dur =
        ({ app with status_message := "Sending request..." }, .error (.json e))) := by
  constructor
  · intro h
    have hne : ¬ (retainedHeaderLines app.headers_input).isEmpty := by
      rcases h with ⟨l, hl, _⟩
      cases hres : retainedHeaderLines app.headers_input with
      | nil => rw [hres] at hl; cases hl
      | cons a as => simp
    rcases parseHeadersGo_error_of_colonless (retainedHeaderLines app.headers_input) [] h with
      ⟨he, hhe⟩
    refine ⟨he, fun net dur => send_request_of_build_error app (.header he) ?_ net dur⟩
    unfold buildRequest add_headers_to_request
    simp [hne, parse_headers, hhe]
  · intro req0 e h1 h2 hadd hval net dur
    refine send_request_of_build_error app (.json e) ?_ net dur
    unfold buildRequest
    rw [hadd]
    simp [h1, h2, hval]

/-- The claim as frozen is false on the code: with the is-JSON flag set
and the (default) empty body buffer, `validate_json` rejects the body, yet
the send does not fail with a `JsonError` — it dispatches and succeeds;
moreover, with a malformed header line and an invalid JSON body together,
the send fails with a `HeaderError`, not a `JsonError`. -/
theorem claim_C2_counterexample :
    ((validate_json ({ App.default with is_json_body := true } : App).body_input =
        .error (.ParseError "EOF while parsing a value")) ∧
      ({ App.default with is_json_body := true } : App).is_json_body = true ∧
      (send_request { App.default with is_json_body := true } okNet200 3).2 = .ok ()) ∧
    ((validate_json "\x7binvalid" = .error (.ParseError "key must be a string")) ∧
      (send_request
        { App.default with
          headers_input := "X-Foo bar", body_input := "\x7binvalid",
          is_json_body := true } okNet200 3).2 =
        .error (.header (.InvalidFormat "X-Foo bar"))) :=
  ⟨⟨rfl, rfl, rfl⟩, ⟨rfl, rfl⟩⟩

/-- The state composing a send with an invalid JSON body (flag set), used
to instantiate the failure theorems. -/
def appJsonBad : App :=
  { App.default with body_input := "\x7binvalid", is_json_body := true }

/-- Instantiation of C2: the colonless line `"X-Foo bar"` forces a
network-independent `HeaderError`; the body `"{invalid"` under the JSON
flag forces a `JsonError` with the 200 oracle never consulted. -/
theorem claim_C2_witness :
    (∃ he : HeaderError, ∀ net dur, send_request appBadHeader net dur =
      ({ appBadHeader with status_message := "Sending request..." }, .error (.header he))) ∧
    send_request appJsonBad okNet200 5 =
      ({ appJsonBad with status_message := "Sending request..." },
        .error (.json (.ParseError "key must be a string"))) := by
  constructor
  · exact (claim_C2_predispatch_failures appBadHeader).1 ⟨"X-Foo bar", by decide, by decide⟩
  · exact (claim_C2_predispatch_failures appJsonBad).2 (baseRequest appJsonBad)
      (.ParseError "key must be a string") (by decide) rfl rfl rfl okNet200 5

/-! ## Claim C4 -/

/-- The claim as frozen is false on the code: a whitespace-only body
buffer is non-empty, yet (flag unset) the send attaches no body at all —
the code tests emptiness after trimming, not emptiness. -/
theorem claim_C4_counterexample :
    ({ App.default with body_input := " " } : App).body_input ≠ "" ∧
    buildRequest { App.default with body_input := " " } =
      .ok { method := .Get, url := "https://httpbin.org/get", headers := [], body := none } :=
  ⟨by decide, rfl⟩

/-- Claim C4, amended: for every send attempt whose retained header lines
apply successfully, yielding builder state `req0`: if the body buffer is
non-empty after trimming and the is-JSON flag is set, the body is
validated as JSON (failure aborts with a `JsonError`) and on success a
`Content-Type: application/json` header and the body buffer are attached;
if it is non-empty after trimming and the flag is unset, the body buffer
is attached verbatim with no content-type added; if it trims to empty, no
body and no content-type are attached and the outcome ignores JSON
validity entirely. -/
theorem claim_C4_body_attachment (app : App) (req0 : BuiltRequest)
    (hadd : add_headers_to_request (baseRequest app) (retainedHeaderLines app.headers_input) =
      .ok req0) :
    (rustTrim app.body_input ≠ "" → app.is_json_body = true →
      ((validate_json app.body_input = .ok () →
        buildRequest app = .ok { req0 with
          headers := req0.headers ++ [("content-type", "application/json")],
          body := some app.body_input }) ∧
      (∀ e, validate_json app.body_input = .error e →
        buildRequest app = .error (.json e)))) ∧
    (rustTrim app.body_input ≠ "" → app.is_json_body = false →
      buildRequest app = .ok { req0 with body := some app.body_input }) ∧
    (rustTrim app.body_input = "" → buildRequest app = .ok req0) := by
  refine ⟨fun h1 h2 => ⟨fun hv => ?_, fun e hv => ?_⟩, fun h1 h2 => ?_, fun h1 => ?_⟩
  · unfold buildRequest
    rw [hadd]
    simp [h1, h2, hv]
  · unfold buildRequest
    rw [hadd]
    simp [h1, h2, hv]
  · unfold buildRequest
    rw [hadd]
    simp [h1, h2]
  · unfold buildRequest
    rw [hadd]
    simp [h1]

/-- Instantiation of C4: a JSON body under the flag gets the content-type
and the body attached after the parsed user header. -/
theorem claim_C4_witness :
    buildRequest { App.default with
                   headers_input := "X-Foo: bar",
                   body_input := "\x7b\"a\":1\x7d", is_json_body := true } =
      .ok { method := .Get, url := "https://httpbin.org/get",
            headers := [("x-foo", "bar"), ("content-type", "application/json")],
            body := some "\x7b\"a\":1\x7d" } := by
  have h := (claim_C4_body_attachment
    { App.default with
      headers_input := "X-Foo: bar",
      body_input := "\x7b\"a\":1\x7d", is_json_body := true }
    { method := .Get, url := "https://httpbin.org/get",
      headers := [("x-foo", "bar")], body := none } rfl).1 (by decide) rfl |>.1 rfl
  exact h

/-! ## Claim C6 -/

/-- Claim C6: the body stored in the response record is the pretty-printed
form exactly when the body is JSON-like by the structural check and parses
as JSON, and the original body text otherwise (whether because the
structural check fails or because parsing fails); the code never consults
a content-type header here. In particular the body `"{\"a\":1}"` is stored
pretty-printed with `"a"` on its own indented line. -/
theorem claim_C6_stored_body_pretty_iff_json_like :
    (∀ body : String,
      (∀ v, is_json_like body = true → jsonParse body = .ok v →
        processResponseBody body = renderPretty 0 v) ∧
      (∀ m, is_json_like body = true → jsonParse body = .error m →
        processResponseBody body = body) ∧
      (is_json_like body = false → processResponseBody body = body)) ∧
    processResponseBody "\x7b\"a\":1\x7d" = "\x7b\n  \"a\": 1\n\x7d" := by
  constructor
  · intro body
    refine ⟨?_, ?_, ?_⟩
    · intro v hjl hp
      have hcond : (startsWithChar (rustTrim body) lbraceChar ||
          startsWithChar (rustTrim body) '[') = true := by
        simp only [is_json_like, Bool.or_eq_true, Bool.and_eq_true] at hjl
        rcases hjl with ⟨h1, _⟩ | ⟨h1, _⟩ <;> simp [h1]
      unfold processResponseBody pretty_print_json_safe pretty_print_json
      simp [hcond, hjl, hp]
    · intro m hjl hp
      have hcond : (startsWithChar (rustTrim body) lbraceChar ||
          startsWithChar (rustTrim body) '[') = true := by
        simp only [is_json_like, Bool.or_eq_true, Bool.and_eq_true] at hjl
        rcases hjl with ⟨h1, _⟩ | ⟨h1, _⟩ <;> simp [h1]
      unfold processResponseBody pretty_print_json_safe pretty_print_json
      simp [hcond, hjl, hp]
    · intro hjl
      unfold processResponseBody pretty_print_json_safe pretty_print_json
      by_cases hc : (startsWithChar (rustTrim body) lbraceChar ||
          startsWithChar (rustTrim body) '[') = true
      · simp [hc, hjl]
      · simp [hc]
  · rfl

/-- Instantiation of C6 at the spec's example body. -/
theorem claim_C6_witness :
    processResponseBody "\x7b\"a\":1\x7d" =
      renderPretty 0 (JValue.jobj [("a", JValue.jnum "1")]) :=
  (claim_C6_stored_body_pretty_iff_json_like.1 "\x7b\"a\":1\x7d").1
    (JValue.jobj [("a", JValue.jnum "1")]) rfl rfl

/-! ## Claim C7 -/

/-- Rust `String::push` appends the one-character string. -/
theorem string_push_eq_append (s : String) (c : Char) : s.push c = s ++ String.mk [c] := by
  cases s
  rfl

/-- Claim C7: the confirm key (Enter) while editing the URL returns focus
to Normal leaving every buffer (the URL included) unchanged, whereas while
editing the headers or the body it appends exactly one newline character
to that buffer and leaves the focus unchanged. -/
theorem claim_C7_enter_per_buffer (app : App) (env : SendEnv) :
    (app.input_mode = .EditingUrl →
      processEvent app ⟨.enter, env⟩ = { app with input_mode := .Normal }) ∧
    (app.input_mode = .EditingHeaders →
      processEvent app ⟨.enter, env⟩ = { app with headers_input := app.headers_input ++ "\n" }) ∧
    (app.input_mode = .EditingBody →
      processEvent app ⟨.enter, env⟩ = { app with body_input := app.body_input ++ "\n" }) := by
  refine ⟨fun h => ?_, fun h => ?_, fun h => ?_⟩ <;>
    simp only [processEvent, h, string_push_eq_append]

/-- Instantiation of C7 in each of the three editing modes. -/
theorem claim_C7_witness :
    processEvent { App.default with input_mode := .EditingUrl } ⟨.enter, ⟨okNet200, 0⟩⟩ =
      { App.default with input_mode := .Normal } ∧
    processEvent { App.default with input_mode := .EditingHeaders, headers_input := "X: y" }
        ⟨.enter, ⟨okNet200, 0⟩⟩ =
      { App.default with input_mode := .EditingHeaders, headers_input := "X: y\n" } ∧
    processEvent { App.default with input_mode := .EditingBody, body_input := "zz" }
        ⟨.enter, ⟨okNet200, 0⟩⟩ =
      { App.default with input_mode := .EditingBody, body_input := "zz\n" } := by
  refine ⟨?_, ?_, ?_⟩
  · exact (claim_C7_enter_per_buffer { App.default with input_mode := .EditingUrl }
      ⟨okNet200, 0⟩).1 rfl
  · have h := (claim_C7_enter_per_buffer
      { App.default with input_mode := .EditingHeaders, headers_input := "X: y" }
      ⟨okNet200, 0⟩).2.1 rfl
    rw [h]
    decide
  · have h := (claim_C7_enter_per_buffer
      { App.default with input_mode := .EditingBody, body_input := "zz" }
      ⟨okNet200, 0⟩).2.2 rfl
    rw [h]
    decide

/-! ## Claim C5 -/

/-- The claim as frozen is false on the code: in the default state (the
active panel is `Request`) no secondary panel is rendered at all — the
frame holds the status bar and the request panel twice, with the right
half left empty. -/
theorem claim_C5_counterexample :
    App.default.active_panel = ActivePanel.Request ∧
    secondaryWidgets App.default = [] ∧
    (ui App.default).map Prod.fst = [.statusArea, .requestArea, .requestArea] :=
  ⟨rfl, rfl, rfl⟩

/-- Claim C5, amended: every frame renders the request-composition panel;
when `Response` is the active panel the secondary half holds exactly the
response widget (the empty-state message when no response exists,
otherwise the current response's status line, first four headers, and
body); when `History` is active it holds exactly the numbered history
list; when `Request` is active the request panel is drawn a second time
and no secondary panel is rendered. -/
theorem claim_C5_frame_contents (app : App) :
    ((PanelArea.requestArea, drawRequestPanel app) ∈ ui app) ∧
    secondaryWidgets app =
      (match app.active_panel with
       | .Request => []
       | .Response => [drawResponsePanel app]
       | .History => [drawHistoryPanel app]) ∧
    (app.current_response = none →
      drawResponsePanel app =
        .responsePlaceholder "No response yet\n\nPress Enter to send request") ∧
    (∀ r, app.current_response = some r →
      drawResponsePanel app =
        .responseView (responseStatusLine r) (r.headers.take 4) r.body) ∧
    drawHistoryPanel app =
      .historyView (app.request_history.enum.map (fun p => historyItemText p.1 p.2)) := by
  refine ⟨?_, ?_, fun h => ?_, fun r h => ?_, rfl⟩
  · unfold ui
    cases app.active_panel <;> simp
  · unfold secondaryWidgets ui
    cases happ : app.active_panel <;> simp
  · unfold drawResponsePanel
    rw [h]
  · unfold drawResponsePanel
    rw [h]

/-- A concrete received response used to instantiate the drawing claims. -/
def respEx : HttpResponse :=
  { status := 200, status_text := "200 OK",
    headers := [("content-type", "text/plain"), ("server", "t")], body := "hi",
    duration_ms := 12 }

/-- Instantiation of C5: the empty-state message with no response, the
numbered history list, and the populated response view. -/
theorem claim_C5_witness :
    secondaryWidgets { App.default with active_panel := .Response } =
      [Widget.responsePlaceholder "No response yet\n\nPress Enter to send request"] ∧
    secondaryWidgets { App.default with active_panel := .History } =
      [Widget.historyView []] ∧
    drawResponsePanel { App.default with
                        active_panel := .Response,
                        current_response := some respEx } =
      Widget.responseView "200 200 OK (12ms)" [("content-type", "text/plain"), ("server", "t")]
        "hi" := by
  refine ⟨?_, ?_, ?_⟩
  · have h := claim_C5_frame_contents { App.default with active_panel := .Response }
    rw [h.2.1, h.2.2.1 rfl]
  · have h := claim_C5_frame_contents { App.default with active_panel := .History }
    rw [h.2.1]
    decide
  · have h := (claim_C5_frame_contents { App.default with
      active_panel := .Response,
      current_response := some respEx }).2.2.2.1 respEx rfl
    rw [h]
    decide

/-! ## Claim C8 -/

/-- A send attempt never touches the method index. -/
theorem handleSend_method_index (app : App) (env : SendEnv) :
    (handleSend app env).method_index = app.method_index := by
  rcases send_request_elim app env.net env.durationMs with
    ⟨e, _, hs⟩ | ⟨b, m, _, _, hs⟩ | ⟨b, r, _, _, hs⟩ <;>
    · unfold handleSend
      rw [hs]

/-- Every dispatched event keeps the method index below the method-list
length. -/
theorem processEvent_method_index (app : App) (ev : InputEvent) (h : app.method_index < 4) :
    (processEvent app ev).method_index < 4 := by
  obtain ⟨k, env⟩ := ev
  unfold processEvent
  cases app.input_mode with
  | Normal =>
    cases k with
    | charKey c =>
      dsimp only
      split_ifs <;>
        first
          | exact h
          | (show (app.method_index + 1) % get_methods.length < 4
             simp only [get_methods, List.length_cons, List.length_nil]
             omega)
          | (show (if app.method_index = 0 then get_methods.length - 1
               else app.method_index - 1) < 4
             simp only [get_methods, List.length_cons, List.length_nil]
             split_ifs <;> omega)
    | enter =>
      show (handleSend app env).method_index < 4
      rw [handleSend_method_index app env]
      exact h
    | tab => exact h
    | esc => exact h
    | backspace => exact h
    | otherKey => exact h
  | EditingUrl => cases k <;> exact h
  | EditingHeaders => cases k <;> exact h
  | EditingBody => cases k <;> exact h

/-- The method-index range invariant over all reachable states. -/
theorem reachable_method_index (app : App) (h : Reachable app) : app.method_index < 4 := by
  induction h with
  | init => decide
  | step ev _ ih => exact processEvent_method_index _ ev ih

/-- Claim C8: in every reachable state the method index lies in `[0, 4)`,
cycling forward four times from any in-range index returns to it, and
cycling backward from index 0 yields the last index 3. -/
theorem claim_C8_method_index_invariant :
    (∀ app : App, Reachable app → app.method_index < 4) ∧
    (∀ app : App, app.method_index < 4 →
      (next_method (next_method (next_method (next_method app)))).method_index =
        app.method_index) ∧
    (∀ app : App, app.method_index = 0 → (previous_method app).method_index = 3) := by
  refine ⟨reachable_method_index, fun app h => ?_, fun app h => ?_⟩
  · show ((((app.method_index + 1) % 4 + 1) % 4 + 1) % 4 + 1) % 4 = app.method_index
    omega
  · show (if app.method_index = 0 then get_methods.length - 1 else app.method_index - 1) = 3
    rw [if_pos h]
    rfl

/-- Instantiation of C8 at the initial state. -/
theorem claim_C8_witness :
    App.default.method_index < 4 ∧
    (next_method (next_method (next_method (next_method App.default)))).method_index =
      App.default.method_index ∧
    (previous_method App.default).method_index = 3 :=
  ⟨claim_C8_method_index_invariant.1 App.default Reachable.init,
   claim_C8_method_index_invariant.2.1 App.default (by decide),
   claim_C8_method_index_invariant.2.2 App.default rfl⟩

/-! ## Claim C10 -/

/-- A send attempt leaves the history alone or appends one pair whose
response is present. -/
theorem handleSend_history_shape (app : App) (env : SendEnv) :
    (handleSend app env).request_history = app.request_history ∨
    ∃ q r, (handleSend app env).request_history = app.request_history ++ [(q, some r)] := by
  rcases send_request_elim app env.net env.durationMs with
    ⟨e, _, hs⟩ | ⟨b, m, _, _, hs⟩ | ⟨b, r, _, _, hs⟩
  · left
    unfold handleSend
    rw [hs]
  · left
    unfold handleSend
    rw [hs]
  · right
    exact ⟨makeRequestRecord app, makeResponseRecord r env.durationMs, by
      unfold handleSend
      rw [hs]⟩

/-- Every dispatched event preserves "every history entry has a present
response". -/
theorem processEvent_history_all_some (app : App) (ev : InputEvent)
    (h : app.request_history.all (fun p => p.2.isSome) = true) :
    (processEvent app ev).request_history.all (fun p => p.2.isSome) = true := by
  obtain ⟨k, env⟩ := ev
  unfold processEvent
  cases app.input_mode with
  | Normal =>
    cases k with
    | charKey c =>
      dsimp only
      split_ifs <;> exact h
    | enter =>
      show (handleSend app env).request_history.all (fun p => p.2.isSome) = true
      rcases handleSend_history_shape app env with heq | ⟨q, r, heq⟩
      · rw [heq]; exact h
      · rw [heq, List.all_append, h]
        rfl
    | tab => exact h
    | esc => exact h
    | backspace => exact h
    | otherKey => exact h
  | EditingUrl => cases k <;> exact h
  | EditingHeaders => cases k <;> exact h
  | EditingBody => cases k <;> exact h

/-- Claim C10: in every reachable state, every history entry carries a
present (`some`) response record, so the `"..."` placeholder branch of the
history rendering can never be taken. -/
theorem claim_C10_history_entries_have_responses (app : App) (h : Reachable app) :
    app.request_history.all (fun p => p.2.isSome) = true := by
  induction h with
  | init => rfl
  | step ev _ ih => exact processEvent_history_all_some _ ev ih

/-- Instantiation of C10 at a reachable state whose history is nonempty:
the state after one successful send from the initial state. -/
theorem claim_C10_witness :
    (processEvent App.default ⟨.enter, ⟨okNet200, 12⟩⟩).request_history.all
      (fun p => p.2.isSome) = true ∧
    (processEvent App.default ⟨.enter, ⟨okNet200, 12⟩⟩).request_history.length = 1 :=
  ⟨claim_C10_history_entries_have_responses _
      (Reachable.step ⟨.enter, ⟨okNet200, 12⟩⟩ Reachable.init),
   by decide⟩

/-! ## Claim C9 -/

/-- The default send environment used where an event cannot trigger a
send. -/
def env0 : SendEnv := ⟨okNet200, 0⟩

/-- The claim as frozen is false on the code: typed characters are
appended to the existing URL buffer, and the buffer starts non-empty
(`App::default` seeds it), so after typing `a`, `b` in URL-editing mode
the buffer is the seeded URL with `ab` appended, not `"ab"`. -/
theorem claim_C9_counterexample :
    (processEvent App.default ⟨.charKey 'u', env0⟩).input_mode = .EditingUrl ∧
    (processEvents App.default
      [⟨.charKey 'u', env0⟩, ⟨.charKey 'a', env0⟩, ⟨.charKey 'b', env0⟩]).url =
      "https://httpbin.org/getab" ∧
    ("https://httpbin.org/getab" : String) ≠ "ab" := by
  refine ⟨rfl, by decide, by decide⟩

/-- Appending the empty character list to a string changes nothing. -/
theorem string_append_mk_nil (s : String) : s ++ String.mk [] = s := by
  cases s with
  | mk l =>
    show String.mk (l ++ []) = String.mk l
    rw [List.append_nil]

/-- Pushing a character commutes with appending the remaining characters. -/
theorem string_push_append_mk (s : String) (c : Char) (cs : List Char) :
    s.push c ++ String.mk cs = s ++ String.mk (c :: cs) := by
  cases s with
  | mk l =>
    show String.mk (l ++ [c] ++ cs) = String.mk (l ++ (c :: cs))
    rw [List.append_assoc]
    rfl

/-- Processing a list of printable characters in URL-editing mode appends
them, in order, to the URL buffer and changes nothing else. -/
theorem processEvents_chars_url (cs : List Char) : ∀ app : App,
    app.input_mode = .EditingUrl → ∀ env : SendEnv,
    processEvents app (cs.map (fun c => ⟨.charKey c, env⟩)) =
      { app with url := app.url ++ String.mk cs } := by
  induction cs with
  | nil =>
    intro app h env
    show app = { app with url := app.url ++ String.mk [] }
    rw [string_append_mk_nil]
  | cons c cs ih =>
    intro app h env
    show processEvents (processEvent app ⟨.charKey c, env⟩) (cs.map (fun d => ⟨.charKey d, env⟩)) =
      { app with url := app.url ++ String.mk (c :: cs) }
    have hc : processEvent app ⟨.charKey c, env⟩ = { app with url := app.url.push c } := by
      simp only [processEvent, h]
    rw [hc, ih { app with url := app.url.push c } h env, string_push_append_mk]

/-- Claim C9, amended: for every state in URL-editing mode, processing a
sequence of printable characters leaves the URL buffer equal to the buffer
before those events with the characters appended in order (the frozen
claim omitted the pre-existing buffer contents); the focus stays in
URL-editing mode; and a subsequent delete-backward removes exactly the
last character — the last typed character when at least one was typed —
and is a no-op on an empty buffer. -/
theorem claim_C9_url_char_editing (app : App) (cs : List Char) (env : SendEnv)
    (h : app.input_mode = .EditingUrl) :
    (processEvents app (cs.map (fun c => ⟨.charKey c, env⟩))).url = app.url ++ String.mk cs ∧
    (processEvents app (cs.map (fun c => ⟨.charKey c, env⟩))).input_mode = .EditingUrl ∧
    (processEvent (processEvents app (cs.map (fun c => ⟨.charKey c, env⟩)))
        ⟨.backspace, env⟩).url = rustPop (app.url ++ String.mk cs) ∧
    (cs ≠ [] →
      (processEvent (processEvents app (cs.map (fun c => ⟨.charKey c, env⟩)))
        ⟨.backspace, env⟩).url = app.url ++ String.mk cs.dropLast) ∧
    (app.url ++ String.mk cs = "" →
      (processEvent (processEvents app (cs.map (fun c => ⟨.charKey c, env⟩)))
        ⟨.backspace, env⟩).url = "") := by
  have hall := processEvents_chars_url cs app h env
  have hbs : (processEvent (processEvents app (cs.map (fun c => ⟨.charKey c, env⟩)))
      ⟨.backspace, env⟩).url = rustPop (app.url ++ String.mk cs) := by
    rw [hall]
    simp only [processEvent, h]
  refine ⟨by rw [hall], by rw [hall]; exact h, hbs, fun hne => ?_, fun hempty => ?_⟩
  · rw [hbs]
    cases app.url with
    | mk l =>
      show String.mk ((l ++ cs).dropLast) = String.mk (l ++ cs.dropLast)
      rw [List.dropLast_append_of_ne_nil l hne]
  · rw [hbs, hempty]
    rfl

/-- Instantiation of C9: typing `a`, `b` into an emptied URL buffer yields
`"ab"`, and one backspace then leaves `"a"`. -/
theorem claim_C9_witness :
    (processEvents { App.default with input_mode := .EditingUrl, url := "" }
      (['a', 'b'].map (fun c => ⟨.charKey c, env0⟩))).url = "ab" ∧
    (processEvent (processEvents { App.default with input_mode := .EditingUrl, url := "" }
      (['a', 'b'].map (fun c => ⟨.charKey c, env0⟩))) ⟨.backspace, env0⟩).url = "a" := by
  have h := claim_C9_url_char_editing
    { App.default with input_mode := .EditingUrl, url := "" } ['a', 'b'] env0 rfl
  refine ⟨?_, ?_⟩
  · rw [h.1]
    decide
  · rw [h.2.2.2.1 (by decide)]
    decide

end HttpClient
